import Mathlib

/-!
Shallow embedding of the moz-mcp client (`src/moz-client.ts`): authentication
resolution in the `MozApiClient` constructor, the `sendRequest` result/error
unwrapping, the endpoint-wrapper request builders, the
`getCompetitorAnalysis` aggregation, and `generateCompetitorInsights`.
JavaScript values reaching dynamic field accesses are modelled by `JsVal`;
remote-call outcomes are modelled by `Except String JsVal` (a rejection
carries the error message, as consumed by `.catch(e => ({error: e.message}))`).
-/

namespace MozMcp

/-- Model of the JavaScript values the client manipulates dynamically:
`null`/`undefined` collapse to `null`; numbers are integers (all scores,
ranks, codes and limits in this program are integral). -/
inductive JsVal where
  | null : JsVal
  | num : Int → JsVal
  | str : String → JsVal
  | arr : List JsVal → JsVal
  | obj : List (String × JsVal) → JsVal

/-- Property read `v[k]` with optional-chaining semantics: a missing key or a
non-object receiver yields `undefined` (modelled as `null`). On objects the
first binding of the key wins. -/
def getField (v : JsVal) (k : String) : JsVal :=
  match v with
  | JsVal.obj fields => (fields.lookup k).getD JsVal.null
  | _ => JsVal.null

/-- JavaScript truthiness: `null`/`undefined`, `0` and `""` are falsy;
arrays and objects are always truthy. -/
def truthy (v : JsVal) : Bool :=
  match v with
  | JsVal.null => false
  | JsVal.num n => n != 0
  | JsVal.str s => s != ""
  | JsVal.arr _ => true
  | JsVal.obj _ => true

mutual

/-- Template-literal stringification `${v}` for the value shapes that occur
in the insight strings. -/
def jsToString : JsVal → String
  | JsVal.null => "null"
  | JsVal.num n => toString n
  | JsVal.str s => s
  | JsVal.arr xs => String.intercalate "," (jsToStringList xs)
  | JsVal.obj _ => "[object Object]"

/-- Elementwise `jsToString` over the members of an array. -/
def jsToStringList : List JsVal → List String
  | [] => []
  | x :: xs => jsToString x :: jsToStringList xs

end

/-- Digit grouping for `Number.prototype.toLocaleString()` in the default
en-US locale: a comma every three digits. Input is the reversed digit list. -/
def commaRev : List Char → Nat → List Char
  | [], _ => []
  | c :: rest, k =>
    if k = 3 ∧ rest ≠ [] then c :: ',' :: commaRev rest 1
    else c :: commaRev rest (k + 1)

/-- Rendering of `toLocaleString` for a nonnegative integer in the en-US locale. -/
def groupDigits (n : Nat) : String :=
  String.mk (commaRev (toString n).toList.reverse 1).reverse

mutual

/-- Rendering of `v.toLocaleString()` for the value shapes that can reach the volume
insight (the value is guarded truthy before the call). -/
def jsToLocaleString : JsVal → String
  | JsVal.null => "null"
  | JsVal.num n => (if n < 0 then "-" else "") ++ groupDigits n.natAbs
  | JsVal.str s => s
  | JsVal.arr xs => String.intercalate "," (jsToLocaleStringList xs)
  | JsVal.obj _ => "[object Object]"

/-- Elementwise `jsToLocaleString` over the members of an array. -/
def jsToLocaleStringList : List JsVal → List String
  | [] => []
  | x :: xs => jsToLocaleString x :: jsToLocaleStringList xs

end

/-- JavaScript `>` restricted to the numeric comparisons the program
performs (brand-authority scores are numbers); any other shape compares
false, mirroring NaN-producing coercions on the data this client reads. -/
def jsGT (a b : JsVal) : Bool :=
  match a, b with
  | JsVal.num x, JsVal.num y => x > y
  | _, _ => false

/-- JavaScript `<` under the same numeric restriction as `jsGT`. -/
def jsLT (a b : JsVal) : Bool :=
  match a, b with
  | JsVal.num x, JsVal.num y => x < y
  | _, _ => false

/-- JavaScript `String.prototype.split(sep)` for a single-character separator:
`"a:b:c"` splits to `["a","b","c"]`, `":"` to `["",""]`, `""` to `[""]`. -/
def jsSplit (sep : Char) : List Char → List (List Char)
  | [] => [[]]
  | c :: rest =>
    let r := jsSplit sep rest
    if c = sep then [] :: r
    else match r with
      | [] => [[c]]
      | p :: ps => (c :: p) :: ps

/-- Value of one character of the RFC 4648 base64 alphabet; `none` for
characters outside the alphabet (the Node decoder skips them, `=` included). -/
def base64Val (c : Char) : Option Nat :=
  if 'A' ≤ c ∧ c ≤ 'Z' then some (c.toNat - 65)
  else if 'a' ≤ c ∧ c ≤ 'z' then some (c.toNat - 97 + 26)
  else if '0' ≤ c ∧ c ≤ '9' then some (c.toNat - 48 + 52)
  else if c = '+' then some 62
  else if c = '/' then some 63
  else none

/-- Reassemble bytes from base64 sextets: each full group of 4 sextets gives
3 bytes; a trailing group of 2 or 3 sextets gives 1 or 2 bytes (the lenient Node handling of missing padding). -/
def decodeGroups : List Nat → List Nat
  | a :: b :: c :: d :: rest =>
      (a * 4 + b / 16) :: ((b % 16) * 16 + c / 4) :: ((c % 4) * 64 + d) ::
        decodeGroups rest
  | [a, b] => [a * 4 + b / 16]
  | [a, b, c] => [a * 4 + b / 16, (b % 16) * 16 + c / 4]
  | _ => []

/-- Model of `Buffer.from(s, "base64")`: drop non-alphabet characters, decode the
sextet stream. Never fails, whatever the input string. -/
def base64decodeBytes (s : String) : List Nat :=
  decodeGroups (s.toList.filterMap base64Val)

/-- U+FFFD, emitted for malformed UTF-8 input. -/
def replacementChar : Char := Char.ofNat 0xFFFD

/-- Decoder state of the WHATWG UTF-8 decoding algorithm implemented by
`buffer.toString("utf-8")`: how many continuation bytes are still needed,
the code point accumulated so far, and the admissible range of the next
byte (tightened after E0/ED/F0/F4 lead bytes to exclude overlongs and
surrogates). -/
structure Utf8State where
  needed : Nat
  codepoint : Nat
  lower : Nat
  upper : Nat

/-- The ground decoder state. -/
def utf8Ground : Utf8State := { needed := 0, codepoint := 0, lower := 0x80, upper := 0xBF }

/-- Processing of one byte from the ground state: an ASCII byte is emitted,
a lead byte opens a multi-byte sequence, anything else is malformed and
becomes U+FFFD. -/
def utf8Initial (b : Nat) : Utf8State × List Char :=
  if b < 0x80 then (utf8Ground, [Char.ofNat b])
  else if 0xC2 ≤ b ∧ b ≤ 0xDF then
    ({ needed := 1, codepoint := b - 0xC0, lower := 0x80, upper := 0xBF }, [])
  else if 0xE0 ≤ b ∧ b ≤ 0xEF then
    ({ needed := 2, codepoint := b - 0xE0,
       lower := if b = 0xE0 then 0xA0 else 0x80,
       upper := if b = 0xED then 0x9F else 0xBF }, [])
  else if 0xF0 ≤ b ∧ b ≤ 0xF4 then
    ({ needed := 3, codepoint := b - 0xF0,
       lower := if b = 0xF0 then 0x90 else 0x80,
       upper := if b = 0xF4 then 0x8F else 0xBF }, [])
  else (utf8Ground, [replacementChar])

/-- Processing of one byte in any state: a continuation byte in range
extends the pending sequence (emitting the scalar once complete); an
out-of-range byte emits U+FFFD and is reprocessed as a fresh initial byte. -/
def utf8Step (st : Utf8State) (b : Nat) : Utf8State × List Char :=
  if st.needed = 0 then utf8Initial b
  else if st.lower ≤ b ∧ b ≤ st.upper then
    let cp := st.codepoint * 0x40 + (b - 0x80)
    if st.needed = 1 then (utf8Ground, [Char.ofNat cp])
    else ({ needed := st.needed - 1, codepoint := cp, lower := 0x80, upper := 0xBF }, [])
  else
    let next := utf8Initial b
    (next.1, replacementChar :: next.2)

/-- The byte-stream fold; a sequence still pending at end of input yields
one final U+FFFD. -/
def utf8DecodeLoop : Utf8State → List Nat → List Char
  | st, [] => if st.needed = 0 then [] else [replacementChar]
  | st, b :: rest =>
    let step := utf8Step st b
    step.2 ++ utf8DecodeLoop step.1 rest

/-- Model of `buffer.toString("utf-8")`: WHATWG UTF-8 decoding with U+FFFD
replacement of malformed input. -/
def utf8Decode (bytes : List Nat) : List Char :=
  utf8DecodeLoop utf8Ground bytes

/-- The decoded text the constructor inspects:
`Buffer.from(this.apiToken, ...).toString(...)`, as a character
list. -/
def decodedCredential (apiToken : String) : List Char :=
  utf8Decode (base64decodeBytes apiToken)

/-- Authentication-relevant state of `MozApiClient` after construction:
the raw token, plus `accessId`/`secretKey` when V2 mode was selected. -/
structure MozApiClient where
  apiToken : String
  accessId : Option (List Char)
  secretKey : Option (List Char)
deriving Repr, DecidableEq

/-- The `MozApiClient` constructor: base64-decode the token; if the decoded text
contains a colon, destructure `decoded.split(':')` into
`accessId`/`secretKey` (first two pieces), else keep only the raw token.
The decode never throws, so the `catch` branch is unreachable. -/
def mkMozApiClient (apiToken : String) : MozApiClient :=
  let decoded := decodedCredential apiToken
  if decoded.contains ':' then
    let pieces := jsSplit ':' decoded
    { apiToken := apiToken, accessId := pieces[0]?, secretKey := pieces[1]? }
  else
    { apiToken := apiToken, accessId := none, secretKey := none }

/-- JavaScript `o || d` for an optional string option (`""` is falsy, so an
empty string also falls back to the default). -/
def jsOrStr : Option String → String → String
  | some s, d => if s = "" then d else s
  | none, d => d

/-- JavaScript `o || d` for an optional numeric option (`0` is falsy, so a
zero limit also falls back to the default). -/
def jsOrNum : Option Int → Int → Int
  | some n, d => if n = 0 then d else n
  | none, d => d

/-- The spread `...(options?.k && { k: options.k })`: the key is included
exactly when the option is present and truthy. -/
def optStrField (k : String) : Option String → List (String × JsVal)
  | some s => if s = "" then [] else [(k, JsVal.str s)]
  | none => []

/-- Error member of a parsed `JsonRpcResponse`. -/
structure RpcError where
  code : Int
  message : String
  data : Option JsVal

/-- Parsed response body; `result` is `JsVal.null` when the body carried
none. `error` present models a truthy error member. -/
structure JsonRpcResponse where
  jsonrpc : String
  id : String
  result : JsVal
  error : Option RpcError

/-- Body handling of `sendRequest` once a response was parsed: a truthy
`error` member becomes a thrown `Error` whose message embeds the remote
code and message; otherwise `data.result` is returned untouched. -/
def sendRequest (response : JsonRpcResponse) : Except String JsVal :=
  match response.error with
  | some e =>
      Except.error ("Moz API Error: " ++ e.message ++ " (Code: " ++ toString e.code ++ ")")
  | none => Except.ok response.result

/-- A constructed remote request, minus the per-call `jsonrpc`/`id` fields
(the id is a fresh UUID, irrelevant to the parameter shape). -/
structure RequestSpec where
  method : String
  params : JsVal

/-- Options accepted by `getKeywordSuggestions`. -/
structure SuggestionsOptions where
  locale : Option String := none
  limit : Option Int := none

/-- Request built by `getKeywordSuggestions`: note that the `limit` option is accepted but
never written into the request parameters, and the engine is the literal
`'google'`. -/
def getKeywordSuggestionsRequest (keyword : String)
    (options : SuggestionsOptions) : RequestSpec :=
  { method := "data.keyword.suggestions.list",
    params := JsVal.obj [("data", JsVal.obj [("serp_query", JsVal.obj
      [("keyword", JsVal.str keyword),
       ("locale", JsVal.str (jsOrStr options.locale "en-US")),
       ("device", JsVal.str "desktop"),
       ("engine", JsVal.str "google")])])] }

/-- Options accepted by the keyword fetch wrappers. -/
structure KeywordOptions where
  locale : Option String := none
  engine : Option String := none

/-- Shared parameter shape of the keyword fetch wrappers. -/
def keywordFetchParams (keyword : String) (options : KeywordOptions) : JsVal :=
  JsVal.obj [("data", JsVal.obj [("serp_query", JsVal.obj
    [("keyword", JsVal.str keyword),
     ("locale", JsVal.str (jsOrStr options.locale "en-US")),
     ("device", JsVal.str "desktop"),
     ("engine", JsVal.str (jsOrStr options.engine "google"))])])]

/-- Request built by `getKeywordMetrics`. -/
def getKeywordMetricsRequest (keyword : String) (options : KeywordOptions) : RequestSpec :=
  { method := "data.keyword.metrics.fetch", params := keywordFetchParams keyword options }

/-- Request built by `getKeywordDifficulty`. -/
def getKeywordDifficultyRequest (keyword : String) (options : KeywordOptions) : RequestSpec :=
  { method := "data.keyword.metrics.difficulty.fetch", params := keywordFetchParams keyword options }

/-- Request built by `getKeywordVolume`. -/
def getKeywordVolumeRequest (keyword : String) (options : KeywordOptions) : RequestSpec :=
  { method := "data.keyword.metrics.volume.fetch", params := keywordFetchParams keyword options }

/-- Request built by `getKeywordSearchIntent`. -/
def getKeywordSearchIntentRequest (keyword : String) (options : KeywordOptions) : RequestSpec :=
  { method := "data.keyword.search.intent.fetch", params := keywordFetchParams keyword options }

/-- Request built by `getSiteMetrics`: fixed scope `domain`. -/
def getSiteMetricsRequest (site : String) : RequestSpec :=
  { method := "data.site.metrics.fetch",
    params := JsVal.obj [("data", JsVal.obj [("site_query", JsVal.obj
      [("query", JsVal.str site), ("scope", JsVal.str "domain")])])] }

/-- Request built by `getSiteBrandAuthority`: fixed scope `domain`. -/
def getSiteBrandAuthorityRequest (site : String) : RequestSpec :=
  { method := "data.site.metrics.brand.authority.fetch",
    params := JsVal.obj [("data", JsVal.obj [("site_query", JsVal.obj
      [("query", JsVal.str site), ("scope", JsVal.str "domain")])])] }

/-- Options accepted by `getSiteRankingKeywords`. -/
structure RankingKeywordsOptions where
  engine : Option String := none
  locale : Option String := none
  limit : Option Int := none

/-- Request built by `getSiteRankingKeywords`: scope `domain`, default limit 100. -/
def getSiteRankingKeywordsRequest (site : String)
    (options : RankingKeywordsOptions) : RequestSpec :=
  { method := "data.site.ranking.keywords.list",
    params := JsVal.obj [("data", JsVal.obj
      [("target_query", JsVal.obj
        [("query", JsVal.str site), ("scope", JsVal.str "domain"),
         ("locale", JsVal.str (jsOrStr options.locale "en-US"))]),
       ("serp_query", JsVal.obj
        [("engine", JsVal.str (jsOrStr options.engine "google")),
         ("locale", JsVal.str (jsOrStr options.locale "en-US"))]),
       ("limit", JsVal.num (jsOrNum options.limit 100))])] }

/-- Options accepted by `getLinks`. -/
structure LinksOptions where
  scope : Option String := none
  sort : Option String := none
  filter : Option String := none
  limit : Option Int := none
  sourceScope : Option String := none

/-- Request built by `getLinks`: default scope `page`, default limit 50; sort/filter/
source_scope keys spread in only when supplied and truthy. -/
def getLinksRequest (target : String) (options : LinksOptions) : RequestSpec :=
  { method := "data.links",
    params := JsVal.obj [("data", JsVal.obj
      ([("target", JsVal.str target),
        ("scope", JsVal.str (jsOrStr options.scope "page")),
        ("limit", JsVal.num (jsOrNum options.limit 50))]
       ++ optStrField "sort" options.sort
       ++ optStrField "filter" options.filter
       ++ optStrField "source_scope" options.sourceScope))] }

/-- Options accepted by `getAnchorText` and `getTopPages`. -/
structure SortLimitOptions where
  scope : Option String := none
  sort : Option String := none
  limit : Option Int := none

/-- Request built by `getAnchorText`: default scope `page`, default limit 50. -/
def getAnchorTextRequest (target : String) (options : SortLimitOptions) : RequestSpec :=
  { method := "data.anchor_text",
    params := JsVal.obj [("data", JsVal.obj
      ([("target", JsVal.str target),
        ("scope", JsVal.str (jsOrStr options.scope "page")),
        ("limit", JsVal.num (jsOrNum options.limit 50))]
       ++ optStrField "sort" options.sort))] }

/-- Request built by `getTopPages`: default scope `root_domain`, default limit 50. -/
def getTopPagesRequest (target : String) (options : SortLimitOptions) : RequestSpec :=
  { method := "data.top_pages",
    params := JsVal.obj [("data", JsVal.obj
      ([("target", JsVal.str target),
        ("scope", JsVal.str (jsOrStr options.scope "root_domain")),
        ("limit", JsVal.num (jsOrNum options.limit 50))]
       ++ optStrField "sort" options.sort))] }

/-- Options accepted by `getLinkingDomains`. -/
structure LinkingDomainsOptions where
  scope : Option String := none
  sort : Option String := none
  filter : Option String := none
  limit : Option Int := none

/-- Request built by `getLinkingDomains`: default scope `page`, default limit 50. -/
def getLinkingDomainsRequest (target : String) (options : LinkingDomainsOptions) : RequestSpec :=
  { method := "data.linking_domains",
    params := JsVal.obj [("data", JsVal.obj
      ([("target", JsVal.str target),
        ("scope", JsVal.str (jsOrStr options.scope "page")),
        ("limit", JsVal.num (jsOrNum options.limit 50))]
       ++ optStrField "sort" options.sort
       ++ optStrField "filter" options.filter))] }

/-- Options accepted by the global top-pages/top-domains wrappers. -/
structure LimitOptions where
  limit : Option Int := none

/-- Request built by `getGlobalTopPages`: default limit 100. -/
def getGlobalTopPagesRequest (options : LimitOptions) : RequestSpec :=
  { method := "data.global.top.pages.list",
    params := JsVal.obj [("data", JsVal.obj
      [("limit", JsVal.num (jsOrNum options.limit 100))])] }

/-- Request built by `getGlobalTopDomains`: default limit 100. -/
def getGlobalTopDomainsRequest (options : LimitOptions) : RequestSpec :=
  { method := "data.global.top.domains.list",
    params := JsVal.obj [("data", JsVal.obj
      [("limit", JsVal.num (jsOrNum options.limit 100))])] }

mutual

/-- All object keys occurring anywhere inside a value. -/
def jsKeys : JsVal → List String
  | JsVal.obj fields => jsKeysFields fields
  | JsVal.arr xs => jsKeysList xs
  | _ => []

/-- Keys occurring inside an array's members. -/
def jsKeysList : List JsVal → List String
  | [] => []
  | x :: xs => jsKeys x ++ jsKeysList xs

/-- Keys of the bindings of an object, and all keys below them. -/
def jsKeysFields : List (String × JsVal) → List String
  | [] => []
  | (k, v) :: fs => k :: (jsKeys v ++ jsKeysFields fs)

end

/-- Environment of remote-call outcomes for one `getCompetitorAnalysis`
invocation: each wrapper call, keyed by its site or keyword argument,
either fulfills with a result value or rejects with an error message. -/
structure CallEnv where
  siteMetrics : String → Except String JsVal
  siteBrandAuthority : String → Except String JsVal
  siteRankingKeywords : String → Except String JsVal
  keywordMetrics : String → Except String JsVal
  keywordDifficulty : String → Except String JsVal
  keywordVolume : String → Except String JsVal
  keywordSearchIntent : String → Except String JsVal

/-- The per-call guard `.catch(e => ({ error: e.message }))`: a rejection
settles to an inline `{error: message}` marker instead of propagating. -/
def settle : Except String JsVal → JsVal
  | Except.ok v => v
  | Except.error m => JsVal.obj [("error", JsVal.str m)]

/-- The three per-site slots assembled for the primary site. -/
structure SiteData where
  site_metrics : JsVal
  brand_authority : JsVal
  ranking_keywords : JsVal

/-- One entry of `competitor_data`. The `catch` around a competitor batch is
unreachable (every call inside is individually guarded), so an entry always
carries the three slots. -/
structure CompetitorEntry where
  site : String
  site_metrics : JsVal
  brand_authority : JsVal
  ranking_keywords : JsVal

/-- The static `competitor_identification_guidance` block. -/
structure GuidanceBlock where
  message : String
  suggestions : List String
  note : String

/-- The guidance text appended when no competitor sites were supplied. -/
def competitorGuidance : GuidanceBlock :=
  { message := "No competitors were specified. To find potential competitors, you can:",
    suggestions :=
      ["1. Look at the ranking keywords data above and see which sites rank for similar keywords",
       "2. Search for your target keyword in Google and see which sites appear in top results",
       "3. Use industry knowledge to identify known competitors",
       "4. Once you identify potential competitors, run this analysis again with competitor_sites parameter"],
    note := "Moz API does not automatically identify competitors - you need to specify them manually" }

/-- Options of `getCompetitorAnalysis`. -/
structure AnalysisOptions where
  locale : Option String := none
  include_keyword_analysis : Option Bool := none

/-- The assembled analysis report (the volatile `analysis_timestamp` is not
modelled). `keyword_analysis` is an optional member so that its presence in
the returned object is itself expressible. -/
structure AnalysisReport where
  primary_site : String
  target_keyword : String
  locale : String
  primary_site_data : SiteData
  competitor_data : List CompetitorEntry
  keyword_analysis : Option JsVal
  insights : List String
  competitor_identification_guidance : Option GuidanceBlock

/-- Brand-authority banding applied at `ba >= 70 ? ... : ...`; scores are
numbers, any non-numeric value compares false throughout and lands in the
final band. -/
def bandOfBA (v : JsVal) : String :=
  match v with
  | JsVal.num n =>
    if n ≥ 70 then "Excellent" else if n ≥ 50 then "Good"
    else if n ≥ 30 then "Fair" else "Needs improvement"
  | _ => "Needs improvement"

/-- Difficulty banding applied at `difficulty >= 70 ? ... : ...`. -/
def bandOfDifficulty (v : JsVal) : String :=
  match v with
  | JsVal.num n =>
    if n ≥ 70 then "Very Hard" else if n ≥ 50 then "Hard"
    else if n ≥ 30 then "Medium" else "Easy"
  | _ => "Easy"

/-- Insight rule 1: primary brand authority, guarded by truthiness of
`.brand_authority?.result` and of the `brand_authority` score. -/
def brandAuthorityInsights (slot : JsVal) : List String :=
  let res := getField slot "result"
  if truthy res then
    let ba := getField res "brand_authority"
    if truthy ba then
      ["Primary site brand authority: " ++ (jsToString ba ++ (" (" ++ (bandOfBA ba ++ ")")))]
    else []
  else []

/-- Insight rule 2: keyword difficulty. -/
def difficultyInsights (targetKeyword : String) (ka : JsVal) : List String :=
  let res := getField (getField ka "difficulty") "result"
  if truthy res then
    let difficulty := getField res "difficulty"
    if truthy difficulty then
      ["Target keyword \"" ++ (targetKeyword ++ ("\" difficulty: " ++
        (jsToString difficulty ++ ("% (" ++ (bandOfDifficulty difficulty ++ ")")))))]
    else []
  else []

/-- Insight rule 3: keyword volume, rendered with `toLocaleString`. -/
def volumeInsights (ka : JsVal) : List String :=
  let res := getField (getField ka "volume") "result"
  if truthy res then
    let volume := getField res "volume"
    if truthy volume then
      ["Target keyword monthly search volume: " ++ jsToLocaleString volume]
    else []
  else []

/-- The read `comp.brand_authority?.result?.brand_authority` for a competitor. -/
def entryBrandAuthority (c : CompetitorEntry) : JsVal :=
  getField (getField c.brand_authority "result") "brand_authority"

/-- The read `analysis.primary_site_data?.brand_authority?.result?.brand_authority`. -/
def primaryBrandAuthority (d : SiteData) : JsVal :=
  getField (getField d.brand_authority "result") "brand_authority"

/-- The competitor-comparison insight string template. -/
def comparisonLine (stronger weaker : Nat) : String :=
  "Competitive landscape: " ++ (toString stronger ++
    (" competitors have higher brand authority, " ++ (toString weaker ++ " have lower")))

/-- Insight rule 4: competitor comparison. Counts competitors whose truthy
brand authority is strictly above / strictly below the truthy primary value;
the line appears only when one of the two counters is positive. -/
def comparisonInsights (primary : SiteData) (comps : List CompetitorEntry) : List String :=
  if comps.length > 0 then
    let primaryBA := primaryBrandAuthority primary
    let stronger := comps.countP (fun c =>
      truthy primaryBA && truthy (entryBrandAuthority c) &&
        jsGT (entryBrandAuthority c) primaryBA)
    let weaker := comps.countP (fun c =>
      truthy primaryBA && truthy (entryBrandAuthority c) &&
        jsLT (entryBrandAuthority c) primaryBA)
    if stronger > 0 || weaker > 0 then
      [comparisonLine stronger weaker]
    else []
  else []

/-- Does the text start with the pattern? (first argument: pattern). -/
def charsStartWith : List Char → List Char → Bool
  | [], _ => true
  | _ :: _, [] => false
  | p :: ps, c :: cs => p == c && charsStartWith ps cs

/-- JavaScript `text.includes(pattern)` on character lists: the pattern
occurs contiguously somewhere in the text. -/
def charsContain (pattern : List Char) : List Char → Bool
  | [] => charsStartWith pattern []
  | c :: cs => charsStartWith pattern (c :: cs) || charsContain pattern cs

/-- Model of `keywords.find(kw => kw.keyword && kw.keyword.toLowerCase().includes(target.toLowerCase()))`.
A truthy non-string `keyword` member has no `toLowerCase` and throws (then
caught by the outer handler of the generator), modelled by `Except.error`. -/
def findTargetKeyword (targetKeyword : String) : List JsVal → Except Unit (Option JsVal)
  | [] => Except.ok none
  | x :: rest =>
    let kw := getField x "keyword"
    if truthy kw then
      match kw with
      | JsVal.str s =>
        if charsContain (targetKeyword.data.map Char.toLower) (s.data.map Char.toLower) then
          Except.ok (some x)
        else findTargetKeyword targetKeyword rest
      | _ => Except.error ()
    else findTargetKeyword targetKeyword rest

/-- Rendering of `targetFound.rank || "unknown"`, then template stringification. -/
def rankPosition (targetFound : JsVal) : String :=
  let r := getField targetFound "rank"
  if truthy r then jsToString r else "unknown"

/-- The fallback advisory pushed by the catch handler of the generator. -/
def advisoryLine : String :=
  "Note: Some insights could not be generated due to data analysis issues"

/-- Insight rule 5: ranking keywords. Requires a truthy
`ranking_keywords?.result` with a truthy `.length`; a truthy non-empty
string result reaches `.find` and throws into the outer catch after the
count line was already pushed. -/
def rankingInsights (targetKeyword : String) (slot : JsVal) : List String :=
  let res := getField slot "result"
  if truthy res then
    match res with
    | JsVal.arr keywords =>
      if keywords.length ≠ 0 then
        ("Primary site ranks for " ++ (toString keywords.length ++
          " keywords (showing up to 100)")) ::
        (match findTargetKeyword targetKeyword keywords with
         | Except.ok (some targetFound) =>
           ["Primary site ranks for target keyword \"" ++ (targetKeyword ++
             ("\" at position " ++ rankPosition targetFound))]
         | Except.ok none =>
           ["Primary site does not appear to rank in top 100 for target keyword \"" ++
             (targetKeyword ++ "\"")]
         | Except.error _ => [advisoryLine])
      else []
    | JsVal.str s =>
      if s.length ≠ 0 then
        [("Primary site ranks for " ++ (toString s.length ++
           " keywords (showing up to 100)")), advisoryLine]
      else []
    | _ => []
  else []

/-- Model of `generateCompetitorInsights`: the five rules in source order. The only
statements in the source body that can throw are inside rule 5, so the
outer try/catch is localised there. -/
def generateCompetitorInsights (analysis : AnalysisReport) : List String :=
  let ka := analysis.keyword_analysis.getD JsVal.null
  brandAuthorityInsights analysis.primary_site_data.brand_authority
    ++ difficultyInsights analysis.target_keyword ka
    ++ volumeInsights ka
    ++ comparisonInsights analysis.primary_site_data analysis.competitor_data
    ++ rankingInsights analysis.target_keyword analysis.primary_site_data.ranking_keywords

/-- Model of `getCompetitorAnalysis`: assemble primary-site data, per-competitor data
in caller order (each of the three calls per site individually guarded),
keyword analysis when requested (the `keyword_analysis` member is
initialised to `{}` and kept when analysis is not requested), then insights,
then the guidance block when the competitor list is empty. The outer
try/catch is unreachable since every remote call is guarded. -/
def getCompetitorAnalysis (env : CallEnv) (primarySite : String)
    (competitorSites : List String) (targetKeyword : String)
    (options : AnalysisOptions) : AnalysisReport :=
  let locale := jsOrStr options.locale "en-US"
  let includeKeywordAnalysis := !(options.include_keyword_analysis == some false)
  let primaryData : SiteData :=
    { site_metrics := settle (env.siteMetrics primarySite),
      brand_authority := settle (env.siteBrandAuthority primarySite),
      ranking_keywords := settle (env.siteRankingKeywords primarySite) }
  let competitorData : List CompetitorEntry := competitorSites.map (fun competitor =>
    { site := competitor,
      site_metrics := settle (env.siteMetrics competitor),
      brand_authority := settle (env.siteBrandAuthority competitor),
      ranking_keywords := settle (env.siteRankingKeywords competitor) })
  let keywordAnalysis : JsVal :=
    if includeKeywordAnalysis then
      JsVal.obj
        [("keyword", JsVal.str targetKeyword),
         ("metrics", settle (env.keywordMetrics targetKeyword)),
         ("difficulty", settle (env.keywordDifficulty targetKeyword)),
         ("volume", settle (env.keywordVolume targetKeyword)),
         ("search_intent", settle (env.keywordSearchIntent targetKeyword))]
    else JsVal.obj []
  let prelim : AnalysisReport :=
    { primary_site := primarySite,
      target_keyword := targetKeyword,
      locale := locale,
      primary_site_data := primaryData,
      competitor_data := competitorData,
      keyword_analysis := some keywordAnalysis,
      insights := [],
      competitor_identification_guidance := none }
  { prelim with
    insights := generateCompetitorInsights prelim,
    competitor_identification_guidance :=
      if competitorSites.length = 0 then some competitorGuidance else none }

/-- Spec-side rendering of an ApiError-kind failure: the thrown message
embeds the remote error code and message. -/
def apiErrorMessage (code : Int) (message : String) : String :=
  "Moz API Error: " ++ message ++ " (Code: " ++ toString code ++ ")"

/-- Spec-side matching predicate for one ranking entry: its `keyword` member
is a truthy string containing the target keyword case-insensitively. -/
def entryMatches (targetKeyword : String) (x : JsVal) : Bool :=
  match getField x "keyword" with
  | JsVal.str s => s != "" && charsContain (targetKeyword.data.map Char.toLower) (s.data.map Char.toLower)
  | _ => false

/-- A brand-authority slot as the insight generator expects it:
`{result: {brand_authority: n}}`. -/
def baSlot (n : Int) : JsVal :=
  JsVal.obj [("result", JsVal.obj [("brand_authority", JsVal.num n)])]

/-- Environment in which every remote call succeeds with an empty object. -/
def okEnv : CallEnv :=
  { siteMetrics := fun _ => Except.ok (JsVal.obj [])
    siteBrandAuthority := fun _ => Except.ok (JsVal.obj [])
    siteRankingKeywords := fun _ => Except.ok (JsVal.obj [])
    keywordMetrics := fun _ => Except.ok (JsVal.obj [])
    keywordDifficulty := fun _ => Except.ok (JsVal.obj [])
    keywordVolume := fun _ => Except.ok (JsVal.obj [])
    keywordSearchIntent := fun _ => Except.ok (JsVal.obj []) }

/-- Environment in which every per-site call about `c1.com` rejects with
`boom` and every other call succeeds. -/
def c1FailEnv : CallEnv :=
  { siteMetrics := fun s =>
      if s = "c1.com" then Except.error "boom" else Except.ok (baSlot 41)
    siteBrandAuthority := fun s =>
      if s = "c1.com" then Except.error "boom" else Except.ok (baSlot 42)
    siteRankingKeywords := fun s =>
      if s = "c1.com" then Except.error "boom"
      else Except.ok (JsVal.obj [("result", JsVal.arr [])])
    keywordMetrics := fun _ => Except.ok (JsVal.obj [])
    keywordDifficulty := fun _ => Except.ok (JsVal.obj [])
    keywordVolume := fun _ => Except.ok (JsVal.obj [])
    keywordSearchIntent := fun _ => Except.ok (JsVal.obj [])
    }

/-- Environment in which only the keyword-volume call rejects. -/
def volumeFailEnv : CallEnv :=
  { okEnv with keywordVolume := fun _ => Except.error "kaboom" }

/-- Report whose primary ranking-keywords call was retrieved as the empty
array, with no other data. -/
def emptyRankingReport : AnalysisReport :=
  { primary_site := "example.com", target_keyword := "seo", locale := "en-US",
    primary_site_data :=
      { site_metrics := JsVal.null, brand_authority := JsVal.null,
        ranking_keywords := JsVal.obj [("result", JsVal.arr [])] },
    competitor_data := [], keyword_analysis := some (JsVal.obj []),
    insights := [], competitor_identification_guidance := none }

/-- Report in which the primary site and its one competitor share the same
known brand authority of 50. -/
def tiedCompetitorReport : AnalysisReport :=
  { primary_site := "example.com", target_keyword := "seo", locale := "en-US",
    primary_site_data :=
      { site_metrics := JsVal.null, brand_authority := baSlot 50,
        ranking_keywords := JsVal.null },
    competitor_data :=
      [{ site := "c1.com", site_metrics := JsVal.null,
         brand_authority := baSlot 50, ranking_keywords := JsVal.null }],
    keyword_analysis := some (JsVal.obj []),
    insights := [], competitor_identification_guidance := none }

theorem jsSplit_ne_nil (sep : Char) (cs : List Char) : jsSplit sep cs ≠ [] := by
  induction cs with
  | nil => simp [jsSplit]
  | cons c rest ih =>
    by_cases hc : c = sep
    · simp [jsSplit, hc]
    · cases h : jsSplit sep rest with
      | nil => exact absurd h ih
      | cons p ps => simp [jsSplit, hc, h]

theorem jsSplit_head (sep : Char) (cs : List Char) :
    (jsSplit sep cs)[0]? = some (cs.takeWhile (fun c => c != sep)) := by
  induction cs with
  | nil => simp [jsSplit]
  | cons c rest ih =>
    by_cases hc : c = sep
    · simp [jsSplit, hc, List.takeWhile_cons]
    · cases h : jsSplit sep rest with
      | nil => exact absurd h (jsSplit_ne_nil sep rest)
      | cons p ps =>
        rw [h] at ih
        have hp : p = rest.takeWhile (fun c => c != sep) := by
          simpa using ih
        simp [jsSplit, hc, h, List.takeWhile_cons, hp]

theorem jsSplit_second (sep : Char) (cs : List Char) (h : sep ∈ cs) :
    (jsSplit sep cs)[1]? =
      some (((cs.dropWhile (fun c => c != sep)).drop 1).takeWhile (fun c => c != sep)) := by
  induction cs with
  | nil => cases h
  | cons c rest ih =>
    by_cases hc : c = sep
    · subst hc
      simp [jsSplit, List.dropWhile_cons, jsSplit_head]
    · have hmem : sep ∈ rest := by
        rcases List.mem_cons.mp h with h1 | h1
        · exact absurd h1.symm hc
        · exact h1
      cases hsplit : jsSplit sep rest with
      | nil => exact absurd hsplit (jsSplit_ne_nil sep rest)
      | cons p ps =>
        have ih2 := ih hmem
        rw [hsplit] at ih2
        simp [jsSplit, hc, hsplit, List.dropWhile_cons]
        simpa using ih2

/-- C2 counterexample: the credential `YTpiOmM=` base64-decodes to `a:b:c`,
whose colon count is 2 (not exactly one), yet the constructor still selects
accessId/secretKey mode, destructuring the first two split pieces. The claim
says this credential should resolve raw-token mode. -/
theorem constructor_two_colons_still_v2 :
    (decodedCredential "YTpiOmM=").count ':' = 2 ∧
    (mkMozApiClient "YTpiOmM=").accessId = some ['a'] ∧
    (mkMozApiClient "YTpiOmM=").secretKey = some ['b'] :=
  ⟨rfl, rfl, rfl⟩

/-- C2 (amended): the constructor resolves accessId/secretKey mode exactly
when the base64 decoding of the credential contains at least one colon; in
that mode `accessId` is the decoded text before the first colon and
`secretKey` the piece between the first and second colon (the remainder if
there is no second colon). Otherwise both stay unset (raw-token mode). The
resolution is a pure function of the credential, fixed at construction. -/
theorem constructor_auth_mode_resolution (apiToken : String) :
    (((mkMozApiClient apiToken).accessId.isSome ∧
        (mkMozApiClient apiToken).secretKey.isSome)
      ↔ 1 ≤ (decodedCredential apiToken).count ':') ∧
    (1 ≤ (decodedCredential apiToken).count ':' →
      (mkMozApiClient apiToken).accessId =
        some ((decodedCredential apiToken).takeWhile (fun c => c != ':')) ∧
      (mkMozApiClient apiToken).secretKey =
        some ((((decodedCredential apiToken).dropWhile (fun c => c != ':')).drop 1).takeWhile
          (fun c => c != ':'))) := by
  by_cases h : (decodedCredential apiToken).contains ':'
  · have hmem : ':' ∈ decodedCredential apiToken := by simpa using h
    have hcount : 1 ≤ (decodedCredential apiToken).count ':' :=
      List.count_pos_iff.mpr hmem
    constructor
    · constructor
      · intro _; exact hcount
      · intro _
        constructor
        · simp [mkMozApiClient, hmem, jsSplit_head]
        · simp [mkMozApiClient, hmem, jsSplit_second _ _ hmem]
    · intro _
      constructor
      · simp [mkMozApiClient, hmem, jsSplit_head]
      · simp [mkMozApiClient, hmem, jsSplit_second _ _ hmem]
  · have hmem : ':' ∉ decodedCredential apiToken := by simpa using h
    have hcount : (decodedCredential apiToken).count ':' = 0 :=
      List.count_eq_zero.mpr hmem
    constructor
    · rw [hcount]
      simp [mkMozApiClient, hmem]
    · intro hge
      rw [hcount] at hge
      omega

/-- C2 witness: for the credential decoding to `abc:secret`, the amended
theorem yields accessId `abc` and secretKey `secret`. -/
theorem constructor_auth_mode_resolution_witness :
    (mkMozApiClient "YWJjOnNlY3JldA==").accessId = some ['a', 'b', 'c'] ∧
    (mkMozApiClient "YWJjOnNlY3JldA==").secretKey =
      some ['s', 'e', 'c', 'r', 'e', 't'] :=
  (constructor_auth_mode_resolution "YWJjOnNlY3JldA==").2 (by decide)

/-- C3: once a response body is parsed, a carried error envelope makes the
call fail with an ApiError-kind message naming the remote code and message;
otherwise the `result` member is returned to the caller unchanged, with no
shape validation. -/
theorem sendRequest_unwraps_result_or_error (response : JsonRpcResponse) :
    (∀ e, response.error = some e →
      sendRequest response = Except.error (apiErrorMessage e.code e.message)) ∧
    (response.error = none → sendRequest response = Except.ok response.result) := by
  constructor
  · intro e he
    simp [sendRequest, he, apiErrorMessage]
  · intro he
    simp [sendRequest, he]

/-- C3 witness: a transport answering `{error:{code:7,message:"bad"}}` fails
with code 7 and message `bad`; a transport answering `{result:{a:1}}` yields
`{a:1}` unchanged. -/
theorem sendRequest_unwraps_result_or_error_witness :
    sendRequest ⟨"2.0", "1", JsVal.null, some ⟨7, "bad", none⟩⟩
      = Except.error (apiErrorMessage 7 "bad") ∧
    sendRequest ⟨"2.0", "2", JsVal.obj [("a", JsVal.num 1)], none⟩
      = Except.ok (JsVal.obj [("a", JsVal.num 1)]) :=
  ⟨(sendRequest_unwraps_result_or_error _).1 _ rfl,
   (sendRequest_unwraps_result_or_error _).2 rfl⟩

/-- C4 failing input: the keyword-suggestions request built without options
(and even with an explicit limit of 1000) carries no `limit` key anywhere in
its parameters, contradicting the documented default limit of 1000 for
keyword suggestions; the remaining documented defaults do hold, as the other
conjuncts evaluate. -/
theorem suggestions_request_has_no_limit_field :
    (jsKeys (getKeywordSuggestionsRequest "seo" {}).params).contains "limit" = false ∧
    (jsKeys (getKeywordSuggestionsRequest "seo" { limit := some 1000 }).params).contains
        "limit" = false ∧
    getField (getField (getField (getKeywordSuggestionsRequest "seo" {}).params
        "data") "serp_query") "locale" = JsVal.str "en-US" ∧
    getField (getField (getField (getKeywordSuggestionsRequest "seo" {}).params
        "data") "serp_query") "device" = JsVal.str "desktop" ∧
    getField (getField (getField (getKeywordSuggestionsRequest "seo" {}).params
        "data") "serp_query") "engine" = JsVal.str "google" ∧
    getField (getField (getSiteRankingKeywordsRequest "example.com" {}).params
        "data") "limit" = JsVal.num 100 ∧
    getField (getField (getLinksRequest "example.com" {}).params "data") "scope"
      = JsVal.str "page" ∧
    getField (getField (getLinksRequest "example.com" {}).params "data") "limit"
      = JsVal.num 50 ∧
    getField (getField (getAnchorTextRequest "example.com" {}).params "data") "limit"
      = JsVal.num 50 ∧
    getField (getField (getTopPagesRequest "example.com" {}).params "data") "scope"
      = JsVal.str "root_domain" ∧
    getField (getField (getTopPagesRequest "example.com" {}).params "data") "limit"
      = JsVal.num 50 ∧
    getField (getField (getLinkingDomainsRequest "example.com" {}).params "data") "limit"
      = JsVal.num 50 ∧
    getField (getField (getGlobalTopPagesRequest {}).params "data") "limit"
      = JsVal.num 100 ∧
    getField (getField (getGlobalTopDomainsRequest {}).params "data") "limit"
      = JsVal.num 100 :=
  ⟨rfl, rfl, rfl, rfl, rfl, rfl, rfl, rfl, rfl, rfl, rfl, rfl, rfl, rfl⟩

/-- C10: the keyword-suggestions request is insensitive to the limit option:
two invocations with the same keyword and locale but different (or absent)
limits build the identical request, the parameters never contain a `limit`
key, and the engine is always the literal `google`. -/
theorem suggestions_request_limit_insensitive (keyword : String)
    (locale : Option String) (limit1 limit2 : Option Int) :
    getKeywordSuggestionsRequest keyword { locale := locale, limit := limit1 }
      = getKeywordSuggestionsRequest keyword { locale := locale, limit := limit2 } ∧
    (jsKeys (getKeywordSuggestionsRequest keyword
        { locale := locale, limit := limit1 }).params).contains "limit" = false ∧
    getField (getField (getField (getKeywordSuggestionsRequest keyword
        { locale := locale, limit := limit1 }).params "data") "serp_query") "engine"
      = JsVal.str "google" :=
  ⟨rfl, rfl, rfl⟩

theorem truthy_of_getField_ne_null (v : JsVal) (k : String) (w : JsVal)
    (h : getField v k = w) (hw : w ≠ JsVal.null) : truthy v = true := by
  cases v with
  | obj fields => rfl
  | null => exact absurd h.symm (by simpa [getField] using hw)
  | num n => exact absurd h.symm (by simpa [getField] using hw)
  | str s => exact absurd h.symm (by simpa [getField] using hw)
  | arr xs => exact absurd h.symm (by simpa [getField] using hw)

/-- C1: the returned report has exactly one competitor entry per supplied
competitor site, in the caller-supplied order, and a rejected per-site call
becomes an inline error marker in its slot of that entry instead of
aborting the batch (the operation is total whatever the outcomes). -/
theorem competitor_data_order_and_isolation (env : CallEnv)
    (primarySite targetKeyword : String) (competitorSites : List String)
    (options : AnalysisOptions) :
    (getCompetitorAnalysis env primarySite competitorSites targetKeyword
        options).competitor_data.length = competitorSites.length ∧
    (∀ (i : Nat) (site : String), competitorSites[i]? = some site →
      ∃ entry : CompetitorEntry,
        (getCompetitorAnalysis env primarySite competitorSites targetKeyword
            options).competitor_data[i]? = some entry ∧
        entry.site = site ∧
        (∀ m, env.siteMetrics site = Except.error m →
          entry.site_metrics = JsVal.obj [("error", JsVal.str m)]) ∧
        (∀ m, env.siteBrandAuthority site = Except.error m →
          entry.brand_authority = JsVal.obj [("error", JsVal.str m)]) ∧
        (∀ m, env.siteRankingKeywords site = Except.error m →
          entry.ranking_keywords = JsVal.obj [("error", JsVal.str m)])) := by
  constructor
  · simp [getCompetitorAnalysis]
  · intro i site hsite
    refine ⟨{ site := site,
              site_metrics := settle (env.siteMetrics site),
              brand_authority := settle (env.siteBrandAuthority site),
              ranking_keywords := settle (env.siteRankingKeywords site) },
            ?_, rfl, ?_, ?_, ?_⟩
    · simp [getCompetitorAnalysis, List.getElem?_map, hsite]
    · intro m hm; simp [settle, hm]
    · intro m hm; simp [settle, hm]
    · intro m hm; simp [settle, hm]

/-- C1 witness: with every call about `c1.com` failing and every call about
`c2.com` succeeding, slot 0 of the competitor list is `c1.com` with inline
error markers, and the list has the full length 2. -/
theorem competitor_data_order_and_isolation_witness :
    (getCompetitorAnalysis c1FailEnv "example.com" ["c1.com", "c2.com"] "seo"
        {}).competitor_data.length = 2 ∧
    ∃ entry : CompetitorEntry,
      (getCompetitorAnalysis c1FailEnv "example.com" ["c1.com", "c2.com"] "seo"
          {}).competitor_data[0]? = some entry ∧
      entry.site = "c1.com" ∧
      entry.site_metrics = JsVal.obj [("error", JsVal.str "boom")] := by
  obtain ⟨hlen, h⟩ := competitor_data_order_and_isolation c1FailEnv "example.com"
    "seo" ["c1.com", "c2.com"] {}
  obtain ⟨entry, he, hsite, hm, _, _⟩ := h 0 "c1.com" rfl
  exact ⟨hlen, entry, he, hsite, hm "boom" rfl⟩

/-- C5 counterexample: invoked with keyword analysis switched off, the
report still contains the `keyword_analysis` member (kept as the initial
empty object), while the claim says the member should be absent. -/
theorem keyword_analysis_member_kept_when_not_requested :
    (getCompetitorAnalysis okEnv "example.com" [] "seo"
        { include_keyword_analysis := some false }).keyword_analysis
      = some (JsVal.obj []) := rfl

/-- C5 (amended): the `keyword_analysis` member is always present in the
returned report: when keyword analysis was not requested it remains the
initial empty object, and when requested (the default) it is populated with
the keyword plus the metrics, difficulty, volume and search_intent slots of
the four keyword calls, each individually guarded so a rejection becomes an
inline error marker in its slot. -/
theorem keyword_analysis_member_population (env : CallEnv)
    (primarySite targetKeyword : String) (competitorSites : List String)
    (options : AnalysisOptions) :
    (options.include_keyword_analysis = some false →
      (getCompetitorAnalysis env primarySite competitorSites targetKeyword
          options).keyword_analysis = some (JsVal.obj [])) ∧
    (options.include_keyword_analysis ≠ some false →
      (getCompetitorAnalysis env primarySite competitorSites targetKeyword
          options).keyword_analysis = some (JsVal.obj
        [("keyword", JsVal.str targetKeyword),
         ("metrics", settle (env.keywordMetrics targetKeyword)),
         ("difficulty", settle (env.keywordDifficulty targetKeyword)),
         ("volume", settle (env.keywordVolume targetKeyword)),
         ("search_intent", settle (env.keywordSearchIntent targetKeyword))])) := by
  constructor
  · intro h; simp [getCompetitorAnalysis, h]
  · intro h; simp [getCompetitorAnalysis, h]

/-- C5 witness: with analysis off the member is the kept empty object; with
the default options and a failing volume call, the member carries the four
slots with an inline error marker in the volume slot. -/
theorem keyword_analysis_member_population_witness :
    (getCompetitorAnalysis okEnv "example.com" [] "seo"
        { include_keyword_analysis := some false }).keyword_analysis
      = some (JsVal.obj []) ∧
    (getCompetitorAnalysis volumeFailEnv "example.com" [] "seo" {}).keyword_analysis
      = some (JsVal.obj
        [("keyword", JsVal.str "seo"),
         ("metrics", JsVal.obj []),
         ("difficulty", JsVal.obj []),
         ("volume", JsVal.obj [("error", JsVal.str "kaboom")]),
         ("search_intent", JsVal.obj [])]) :=
  ⟨(keyword_analysis_member_population okEnv "example.com" "seo" []
      { include_keyword_analysis := some false }).1 rfl,
   (keyword_analysis_member_population volumeFailEnv "example.com" "seo" [] {}).2
      (by decide)⟩

/-- C9: a zero score is treated as absent data by the insight rules: a zero
brand authority, difficulty or volume suppresses the corresponding line
entirely, and a matched ranking entry whose rank is 0 is reported at
position `unknown`. -/
theorem zero_scores_suppress_insights :
    (∀ slot : JsVal,
      getField (getField slot "result") "brand_authority" = JsVal.num 0 →
      brandAuthorityInsights slot = []) ∧
    (∀ (targetKeyword : String) (ka : JsVal),
      getField (getField (getField ka "difficulty") "result") "difficulty" = JsVal.num 0 →
      difficultyInsights targetKeyword ka = []) ∧
    (∀ ka : JsVal,
      getField (getField (getField ka "volume") "result") "volume" = JsVal.num 0 →
      volumeInsights ka = []) ∧
    (∀ x : JsVal, getField x "rank" = JsVal.num 0 → rankPosition x = "unknown") := by
  refine ⟨?_, ?_, ?_, ?_⟩
  · intro slot h
    have hres : truthy (getField slot "result") = true :=
      truthy_of_getField_ne_null _ _ _ h (fun hh => JsVal.noConfusion hh)
    simp [brandAuthorityInsights, hres, h, truthy]
  · intro targetKeyword ka h
    have hres : truthy (getField (getField ka "difficulty") "result") = true :=
      truthy_of_getField_ne_null _ _ _ h (fun hh => JsVal.noConfusion hh)
    simp [difficultyInsights, hres, h, truthy]
  · intro ka h
    have hres : truthy (getField (getField ka "volume") "result") = true :=
      truthy_of_getField_ne_null _ _ _ h (fun hh => JsVal.noConfusion hh)
    simp [volumeInsights, hres, h, truthy]
  · intro x h
    simp [rankPosition, h, truthy]

/-- C9 witness: concrete zero-valued slots produce no insight line, and a
zero rank renders as `unknown`. -/
theorem zero_scores_suppress_insights_witness :
    brandAuthorityInsights (baSlot 0) = [] ∧
    difficultyInsights "seo" (JsVal.obj [("difficulty",
      JsVal.obj [("result", JsVal.obj [("difficulty", JsVal.num 0)])])]) = [] ∧
    volumeInsights (JsVal.obj [("volume",
      JsVal.obj [("result", JsVal.obj [("volume", JsVal.num 0)])])]) = [] ∧
    rankPosition (JsVal.obj [("rank", JsVal.num 0)]) = "unknown" :=
  ⟨zero_scores_suppress_insights.1 _ rfl,
   zero_scores_suppress_insights.2.1 "seo" _ rfl,
   zero_scores_suppress_insights.2.2.1 _ rfl,
   zero_scores_suppress_insights.2.2.2 _ rfl⟩

/-- C7 counterexample: primary and competitor brand authority are both
known (truthy) and equal to 50, so a comparison was possible, yet the
generated insights carry no competitor-comparison line (both strict
counters stay zero). -/
theorem tied_comparison_line_not_emitted :
    truthy (primaryBrandAuthority tiedCompetitorReport.primary_site_data) = true ∧
    tiedCompetitorReport.competitor_data.all
      (fun c => truthy (entryBrandAuthority c)) = true ∧
    generateCompetitorInsights tiedCompetitorReport
      = ["Primary site brand authority: 50 (Good)"] :=
  ⟨rfl, rfl, rfl⟩

/-- C7 (amended): the competitor-comparison insight is emitted exactly when
some competitor with a known (truthy) brand authority, compared against a
known primary brand authority, is strictly above or strictly below it; a
competitor tied with the primary enables a comparison but emits no line on
its own. The counters over strictly-higher and strictly-lower competitors
are as the claim states. -/
theorem comparison_insight_iff_strict_difference (primary : SiteData)
    (comps : List CompetitorEntry) :
    comparisonInsights primary comps ≠ [] ↔
      ∃ c ∈ comps, truthy (primaryBrandAuthority primary) = true ∧
        truthy (entryBrandAuthority c) = true ∧
        (jsGT (entryBrandAuthority c) (primaryBrandAuthority primary) = true ∨
         jsLT (entryBrandAuthority c) (primaryBrandAuthority primary) = true) := by
  cases comps with
  | nil => simp [comparisonInsights]
  | cons hd tl =>
    have hlen : (hd :: tl).length > 0 := by simp
    simp only [comparisonInsights, if_pos hlen]
    split
    next hcond =>
      simp only [ne_eq, List.cons_ne_nil, not_false_eq_true, true_iff]
      rw [Bool.or_eq_true, decide_eq_true_eq, decide_eq_true_eq] at hcond
      rcases hcond with hs | hw
      · obtain ⟨c, hcmem, hp⟩ := List.countP_pos_iff.mp hs
        rw [Bool.and_eq_true, Bool.and_eq_true] at hp
        exact ⟨c, hcmem, hp.1.1, hp.1.2, Or.inl hp.2⟩
      · obtain ⟨c, hcmem, hp⟩ := List.countP_pos_iff.mp hw
        rw [Bool.and_eq_true, Bool.and_eq_true] at hp
        exact ⟨c, hcmem, hp.1.1, hp.1.2, Or.inr hp.2⟩
    next hcond =>
      rw [Bool.or_eq_true, decide_eq_true_eq, decide_eq_true_eq] at hcond
      push_neg at hcond
      simp only [ne_eq, not_true_eq_false, false_iff]
      rintro ⟨c, hcmem, h1, h2, h3⟩
      obtain ⟨hc1, hc2⟩ := hcond
      rcases h3 with h3 | h3
      · have hpos : 0 < List.countP (fun x =>
            truthy (primaryBrandAuthority primary) && truthy (entryBrandAuthority x) &&
              jsGT (entryBrandAuthority x) (primaryBrandAuthority primary)) (hd :: tl) :=
          List.countP_pos_iff.mpr ⟨c, hcmem,
            by rw [Bool.and_eq_true, Bool.and_eq_true]; exact ⟨⟨h1, h2⟩, h3⟩⟩
        omega
      · have hpos : 0 < List.countP (fun x =>
            truthy (primaryBrandAuthority primary) && truthy (entryBrandAuthority x) &&
              jsLT (entryBrandAuthority x) (primaryBrandAuthority primary)) (hd :: tl) :=
          List.countP_pos_iff.mpr ⟨c, hcmem,
            by rw [Bool.and_eq_true, Bool.and_eq_true]; exact ⟨⟨h1, h2⟩, h3⟩⟩
        omega

theorem entryMatches_false_of_not_truthy (targetKeyword : String) (x : JsVal)
    (h : truthy (getField x "keyword") = false) :
    entryMatches targetKeyword x = false := by
  unfold entryMatches
  cases hk : getField x "keyword" with
  | str s =>
    rw [hk] at h
    simp only [truthy] at h
    simp [h]
  | null => rfl
  | num n => rfl
  | arr xs => rfl
  | obj fields => rfl

theorem findTargetKeyword_eq_find? (targetKeyword : String) (xs : List JsVal)
    (hwf : ∀ x ∈ xs, truthy (getField x "keyword") = true →
      ∃ s, getField x "keyword" = JsVal.str s) :
    findTargetKeyword targetKeyword xs =
      Except.ok (xs.find? (entryMatches targetKeyword)) := by
  induction xs with
  | nil => rfl
  | cons x rest ih =>
    have ihr := ih (fun y hy => hwf y (List.mem_cons_of_mem x hy))
    by_cases ht : truthy (getField x "keyword") = true
    · obtain ⟨s, hs⟩ := hwf x (List.mem_cons_self x rest) ht
      rw [hs] at ht
      simp only [truthy] at ht
      by_cases hcon : charsContain (targetKeyword.data.map Char.toLower)
          (s.data.map Char.toLower) = true
      · have hm : entryMatches targetKeyword x = true := by
          simp [entryMatches, hs, ht, hcon]
        rw [List.find?_cons_of_pos _ hm]
        simp [findTargetKeyword, hs, ht, truthy, hcon]
      · have hcon2 : charsContain (targetKeyword.data.map Char.toLower)
            (s.data.map Char.toLower) = false := Bool.of_not_eq_true hcon
        have hm : entryMatches targetKeyword x = false := by
          simp [entryMatches, hs, hcon2]
        rw [List.find?_cons_of_neg _ (by simp [hm])]
        simp [findTargetKeyword, hs, ht, truthy, hcon2, ihr]
    · have hf : truthy (getField x "keyword") = false := Bool.of_not_eq_true ht
      have hm : entryMatches targetKeyword x = false :=
        entryMatches_false_of_not_truthy targetKeyword x hf
      rw [List.find?_cons_of_neg _ (by simp [hm])]
      simp [findTargetKeyword, hf, ihr]

/-- C7 witness: a competitor with brand authority 60 against a primary of
50 makes the comparison line appear. -/
theorem comparison_insight_iff_strict_difference_witness :
    comparisonInsights
      { site_metrics := JsVal.null, brand_authority := baSlot 50,
        ranking_keywords := JsVal.null }
      [{ site := "c1.com", site_metrics := JsVal.null,
         brand_authority := baSlot 60, ranking_keywords := JsVal.null }] ≠ [] :=
  (comparison_insight_iff_strict_difference _ _).mpr
    ⟨_, List.mem_singleton.mpr rfl, rfl, rfl, Or.inl rfl⟩

/-- C6 counterexample: the primary ranking-keywords list was retrieved as
the empty array (so no entry matches the target), yet no absence insight is
emitted at all, contradicting the claim that a retrieved list with no match
yields an explicit absence line. -/
theorem empty_ranking_list_emits_no_absence_line :
    getField emptyRankingReport.primary_site_data.ranking_keywords "result"
      = JsVal.arr [] ∧
    generateCompetitorInsights emptyRankingReport = [] :=
  ⟨rfl, rfl⟩

/-- C6 (amended): over a retrieved, non-empty ranking-keywords array (whose
entries carry string or falsy `keyword` members), the rule emits the count
line followed by: the position line for the first case-insensitive substring
match, the rank rendering as `unknown` when the rank is falsy; the explicit
absence line when no entry matches; an empty retrieved array emits nothing,
and an errored ranking-keywords slot (which has no `result` member) emits
nothing. -/
theorem ranking_keyword_insight_rules :
    (∀ (targetKeyword : String) (slot : JsVal) (keywords : List JsVal),
      getField slot "result" = JsVal.arr keywords →
      keywords ≠ [] →
      (∀ x ∈ keywords, truthy (getField x "keyword") = true →
        ∃ s, getField x "keyword" = JsVal.str s) →
      rankingInsights targetKeyword slot =
        ("Primary site ranks for " ++ (toString keywords.length ++
          " keywords (showing up to 100)")) ::
        (match keywords.find? (entryMatches targetKeyword) with
         | some targetFound =>
           ["Primary site ranks for target keyword \"" ++ (targetKeyword ++
             ("\" at position " ++ rankPosition targetFound))]
         | none =>
           ["Primary site does not appear to rank in top 100 for target keyword \"" ++
             (targetKeyword ++ "\"")])) ∧
    (∀ (targetKeyword : String) (keywords : List JsVal) (slot : JsVal),
      getField slot "result" = JsVal.arr keywords →
      keywords = [] →
      rankingInsights targetKeyword slot = []) ∧
    (∀ targetKeyword m : String,
      rankingInsights targetKeyword (JsVal.obj [("error", JsVal.str m)]) = []) := by
  refine ⟨?_, ?_, ?_⟩
  · intro targetKeyword slot keywords hres hne hwf
    have hlen : ¬keywords.length = 0 := by simpa using hne
    simp only [rankingInsights, hres, truthy, if_true, hlen, if_false,
      findTargetKeyword_eq_find? targetKeyword keywords hwf]
    cases hfind : keywords.find? (entryMatches targetKeyword) <;> simp [hfind, hne]
  · intro targetKeyword keywords slot hres hnil
    subst hnil
    simp [rankingInsights, hres, truthy]
  · intro targetKeyword m
    rfl

/-- C6 witness: the target `seo tools` matches the entry
`Best SEO Tools 2024` by case-insensitive substring and its rank 3 is
reported; an errored slot emits nothing. -/
theorem ranking_keyword_insight_rules_witness :
    rankingInsights "seo tools" (JsVal.obj [("result", JsVal.arr
        [JsVal.obj [("keyword", JsVal.str "Best SEO Tools 2024"),
                    ("rank", JsVal.num 3)]])])
      = ["Primary site ranks for 1 keywords (showing up to 100)",
         "Primary site ranks for target keyword \"seo tools\" at position 3"] ∧
    rankingInsights "seo" (JsVal.obj [("error", JsVal.str "boom")]) = [] := by
  constructor
  · have h := ranking_keyword_insight_rules.1 "seo tools"
      (JsVal.obj [("result", JsVal.arr
        [JsVal.obj [("keyword", JsVal.str "Best SEO Tools 2024"),
                    ("rank", JsVal.num 3)]])])
      [JsVal.obj [("keyword", JsVal.str "Best SEO Tools 2024"),
                  ("rank", JsVal.num 3)]]
      rfl (List.cons_ne_nil _ _)
      (by
        intro x hx _
        rw [List.mem_singleton] at hx
        subst hx
        exact ⟨"Best SEO Tools 2024", rfl⟩)
    exact h
  · exact ranking_keyword_insight_rules.2.2 "seo" "boom"

theorem head_of_append {p : String} (x : String) (c : Char)
    (h : p.data.head? = some c) : (p ++ x).data.head? = some c := by
  rw [String.data_append]
  cases hp : p.data with
  | nil => rw [hp] at h; cases h
  | cons y ys =>
    rw [hp] at h
    simpa using h

theorem brandAuthorityInsights_head (slot : JsVal) :
    ∀ s ∈ brandAuthorityInsights slot, s.data.head? = some 'P' := by
  intro s hs
  by_cases h1 : truthy (getField slot "result") = true
  · by_cases h2 : truthy (getField (getField slot "result") "brand_authority") = true
    · simp only [brandAuthorityInsights, h1, h2, if_true, List.mem_singleton] at hs
      subst hs
      exact head_of_append _ 'P' rfl
    · simp [brandAuthorityInsights, h1, h2] at hs
  · simp [brandAuthorityInsights, h1] at hs

theorem difficultyInsights_head (targetKeyword : String) (ka : JsVal) :
    ∀ s ∈ difficultyInsights targetKeyword ka, s.data.head? = some 'T' := by
  intro s hs
  by_cases h1 : truthy (getField (getField ka "difficulty") "result") = true
  · by_cases h2 :
      truthy (getField (getField (getField ka "difficulty") "result") "difficulty") = true
    · simp only [difficultyInsights, h1, h2, if_true, List.mem_singleton] at hs
      subst hs
      exact head_of_append _ 'T' rfl
    · simp [difficultyInsights, h1, h2] at hs
  · simp [difficultyInsights, h1] at hs

theorem volumeInsights_head (ka : JsVal) :
    ∀ s ∈ volumeInsights ka, s.data.head? = some 'T' := by
  intro s hs
  by_cases h1 : truthy (getField (getField ka "volume") "result") = true
  · by_cases h2 :
      truthy (getField (getField (getField ka "volume") "result") "volume") = true
    · simp only [volumeInsights, h1, h2, if_true, List.mem_singleton] at hs
      subst hs
      exact head_of_append _ 'T' rfl
    · simp [volumeInsights, h1, h2] at hs
  · simp [volumeInsights, h1] at hs

theorem rankingInsights_head (targetKeyword : String) (slot : JsVal) :
    ∀ s ∈ rankingInsights targetKeyword slot,
      s.data.head? = some 'P' ∨ s.data.head? = some 'N' := by
  intro s hs
  unfold rankingInsights at hs
  dsimp only at hs
  split at hs
  · split at hs
    · split at hs
      · rcases List.mem_cons.mp hs with h | h
        · subst h
          exact Or.inl (head_of_append _ 'P' rfl)
        · split at h
          · rw [List.mem_singleton] at h
            subst h
            exact Or.inl (head_of_append _ 'P' rfl)
          · rw [List.mem_singleton] at h
            subst h
            exact Or.inl (head_of_append _ 'P' rfl)
          · rw [List.mem_singleton] at h
            subst h
            exact Or.inr rfl
      · cases hs
    · split at hs
      · rcases List.mem_cons.mp hs with h | h
        · subst h
          exact Or.inl (head_of_append _ 'P' rfl)
        · rw [List.mem_singleton] at h
          subst h
          exact Or.inr rfl
      · cases hs
    · cases hs
  · cases hs

theorem generate_insights_head_chars (r : AnalysisReport)
    (hcomp : r.competitor_data = []) :
    ∀ s ∈ generateCompetitorInsights r,
      s.data.head? = some 'P' ∨ s.data.head? = some 'T' ∨ s.data.head? = some 'N' := by
  intro s hs
  unfold generateCompetitorInsights at hs
  rw [hcomp] at hs
  have hcompnil : comparisonInsights r.primary_site_data [] = [] := rfl
  rw [hcompnil] at hs
  simp only [List.append_nil, List.mem_append] at hs
  rcases hs with (((h | h) | h) | h)
  · exact Or.inl (brandAuthorityInsights_head _ _ h)
  · exact Or.inr (Or.inl (difficultyInsights_head _ _ _ h))
  · exact Or.inr (Or.inl (volumeInsights_head _ _ h))
  · rcases rankingInsights_head _ _ _ h with h2 | h2
    · exact Or.inl h2
    · exact Or.inr (Or.inr h2)

/-- C8: a report for an empty competitor list carries the static
competitor-identification guidance block, and no competitor-comparison
insight line of any counter values appears among its insights. -/
theorem no_competitors_guidance_and_no_comparison_line (env : CallEnv)
    (primarySite targetKeyword : String) (options : AnalysisOptions) :
    (getCompetitorAnalysis env primarySite [] targetKeyword
        options).competitor_identification_guidance = some competitorGuidance ∧
    ∀ stronger weaker : Nat,
      comparisonLine stronger weaker ∉
        (getCompetitorAnalysis env primarySite [] targetKeyword options).insights := by
  constructor
  · rfl
  · intro a b hmem
    have hhead := generate_insights_head_chars _ rfl (comparisonLine a b) hmem
    have hC : (comparisonLine a b).data.head? = some 'C' := by
      unfold comparisonLine
      exact head_of_append _ 'C' rfl
    rw [hC] at hhead
    rcases hhead with h | h | h <;> simp at h

/-- C8 witness: the concrete empty-competitor analysis carries the guidance
block and no comparison line. -/
theorem no_competitors_guidance_and_no_comparison_line_witness :
    (getCompetitorAnalysis okEnv "example.com" [] "seo"
        {}).competitor_identification_guidance = some competitorGuidance ∧
    comparisonLine 1 0 ∉
      (getCompetitorAnalysis okEnv "example.com" [] "seo" {}).insights :=
  ⟨(no_competitors_guidance_and_no_comparison_line okEnv "example.com" "seo" {}).1,
   (no_competitors_guidance_and_no_comparison_line okEnv "example.com" "seo" {}).2 1 0⟩

end MozMcp
